import Mathlib

/-!
Shallow embedding of the pipeline execution engine of `lava_dispatcher/action.py`
(plus the small slices of collaborating objects the engine touches), together
with theorems settling the frozen claims about it.

Conventions used throughout:
* Python numbers that hold whole seconds are modelled as `Int` (negative values
  are representable, as `datetime.timedelta` accepts them).
* Python exceptions become the inductive `Exc`; raising is `Except.error`.
* A Python exception is constructed with an argument tuple; the `args` field of
  each `Exc` constructor mirrors `Exception.args` (singleton for the common
  one-formatted-string raise).
* Mutation of Python objects is explicit state passing.
-/

set_option autoImplicit false

namespace LavaDispatcher

/-- Exceptions of `lava_dispatcher/action.py` and the Python builtins the
engine raises or catches.  `protectedTimeout` does not correspond to any class
in the source; it is Modelled from the spec: §7 of the specification lists
*ProtectedTimeout* as a distinct error category, and it is included here only
so that claims mentioning it can be stated. -/
inductive Exc where
  | jobError (args : List String)
  | infrastructureError (args : List String)
  | testError (args : List String)
  | runtimeError (args : List String)
  | typeError (args : List String)
  | keyboardInterrupt
  | systemExit (code : Nat)
  | protectedTimeout (args : List String)
  deriving DecidableEq, Repr

/-- Python `repr` of a tuple of strings, used by `str(exc)` when an exception
was built with several arguments (quotes written with the `\x27` escape). -/
def pyReprTuple (args : List String) : String :=
  "(" ++ String.intercalate ", " (args.map (fun s => "\x27" ++ s ++ "\x27")) ++ ")"

/-- `str(exc)` for a Python exception: the single argument itself when there is
exactly one, otherwise the `repr` of the argument tuple. -/
def pyExcStr (args : List String) : String :=
  match args with
  | [m] => m
  | _ => pyReprTuple args

/-- The message the engine extracts from a caught exception
(`str(exc)` on Python 3, the path taken by the modelled code). -/
def Exc.message : Exc → String
  | .jobError a => pyExcStr a
  | .infrastructureError a => pyExcStr a
  | .testError a => pyExcStr a
  | .runtimeError a => pyExcStr a
  | .typeError a => pyExcStr a
  | .keyboardInterrupt => ""
  | .systemExit c => toString c
  | .protectedTimeout a => pyExcStr a

/-- Modelled from the spec: `lava_dispatcher/utils/constants.py` is not under
src (only its import is).  §3 says `default_duration` is a constant; the
theorems below use it symbolically, so the concrete value is immaterial. -/
def ACTION_TIMEOUT : Int := 30

/-- Modelled from the spec: `lava_dispatcher/utils/constants.py` is not under
src.  §3: a clamp constant bounds durations set by job input; the theorems
below use it symbolically. -/
def OVERRIDE_CLAMP_DURATION : Int := 300

/-- The `Timeout` class: name, duration in seconds, protection flag. -/
structure Timeout where
  name : String
  duration : Int := ACTION_TIMEOUT
  «protected» : Bool := false
  deriving DecidableEq, Repr

/-- `Timeout.default_duration`. -/
def Timeout.default_duration : Int := ACTION_TIMEOUT

/-- A mapping argument for `Timeout.parse`: the four recognised keys, each
optional (`'days' in data` is `Option.isSome`). -/
structure TimeoutData where
  days : Option Int := none
  hours : Option Int := none
  minutes : Option Int := none
  seconds : Option Int := none
  deriving DecidableEq, Repr

/-- An arbitrary Python value handed to `Timeout.parse`: either a mapping or
anything else (which the code rejects). -/
inductive PyData where
  | dict (d : TimeoutData)
  | nonDict
  deriving DecidableEq, Repr

/-- `timedelta(days, hours, minutes, seconds).total_seconds()` for whole-second
components. -/
def TimeoutData.totalSeconds (d : TimeoutData) : Int :=
  d.days.getD 0 * 86400 + d.hours.getD 0 * 3600 + d.minutes.getD 0 * 60 + d.seconds.getD 0

/-- The mapping branch of `Timeout.parse`: a zero `timedelta` is falsy, so a
zero total yields `default_duration`. -/
def Timeout.parseDict (d : TimeoutData) : Int :=
  if d.totalSeconds = 0 then Timeout.default_duration else d.totalSeconds

/-- `Timeout.parse`: rejects non-mappings with `RuntimeError`, otherwise sums
the components and substitutes `default_duration` for a zero sum. -/
def Timeout.parse : PyData → Except Exc Int
  | .nonDict => .error (.runtimeError ["Invalid timeout data"])
  | .dict d => .ok (Timeout.parseDict d)

/-- `Timeout.modify`: raises `JobError` (with the format string and the name as
separate arguments, exactly as the source calls the constructor) when the
timeout is protected, else clamps the new duration. -/
def Timeout.modify (t : Timeout) (duration : Int) : Except Exc Timeout :=
  if t.«protected» then
    .error (.jobError ["Trying to modify a protected timeout: %s.", t.name])
  else
    .ok { t with duration := max (min OVERRIDE_CLAMP_DURATION duration) 1 }

/-- Process state observable by `Timeout.action_timeout`: the installed
`SIGALRM` handler (identified by the owning timeout name) and the pending
alarm in seconds (`0` means no alarm scheduled). -/
structure AlarmState where
  sigalrmHandler : Option String := none
  alarm : Int := 0
  deriving DecidableEq, Repr

/-- `Timeout.action_timeout`, a `@contextmanager` generator: installs the
handler, arms the alarm, yields to the body, and clears the alarm after the
`yield`.  When the body raises, `contextlib` throws the exception into the
generator at the `yield`; the generator has no handler around it, so the
statement after the `yield` is never reached and the alarm is left armed. -/
def Timeout.action_timeout {α : Type} (t : Timeout)
    (body : AlarmState → Except Exc α × AlarmState) (_s : AlarmState) :
    Except Exc α × AlarmState :=
  let s1 : AlarmState := { sigalrmHandler := some t.name, alarm := t.duration }
  match body s1 with
  | (.ok a, s2) => (.ok a, { s2 with alarm := 0 })
  | (.error e, s2) => (.error e, s2)

/-- Discriminator for the spec-level *ProtectedTimeout* error category. -/
def Exc.isProtectedTimeoutExc : Exc → Bool
  | .protectedTimeout _ => true
  | _ => false

/-- C5: the claim says `Timeout.action_timeout` clears the alarm on every exit
path of the guarded body.  The code only clears it after a normal return: this
theorem evaluates both exit paths at a concrete timeout and shows the alarm is
still armed (30 seconds pending) when the body raises, so the timeout can fire
after the body has exited. -/
theorem C5_action_timeout_alarm_not_cleared :
    (Timeout.action_timeout (α := Unit) { name := "boot", duration := 30 }
        (fun s1 => (.ok (), s1)) {}).2.alarm = 0
    ∧ (Timeout.action_timeout (α := Unit) { name := "boot", duration := 30 }
        (fun s1 => (.error (.jobError ["boom"]), s1)) {}).2.alarm = 30 :=
  ⟨rfl, rfl⟩

/-- C7 counterexample: modifying a concrete protected timeout raises
`JobError` (with the message and the name as the argument tuple), not an
exception of the spec's *ProtectedTimeout* category. -/
theorem C7_counterexample :
    Timeout.modify { name := "boot", duration := 30, «protected» := true } 50
      = .error (.jobError ["Trying to modify a protected timeout: %s.", "boot"])
    ∧ (Exc.jobError ["Trying to modify a protected timeout: %s.", "boot"]).isProtectedTimeoutExc
      = false :=
  ⟨rfl, rfl⟩

/-- C7 (amended): `Timeout.modify` fails with `JobError` when the timeout is
protected (the duration is not changed, as no modified timeout is produced),
and otherwise sets the duration to the input clamped into
`[1, OVERRIDE_CLAMP_DURATION]`: inputs above the clamp become the clamp and
inputs below 1 become 1. -/
theorem C7_modify (t : Timeout) (d : Int) :
    (t.«protected» = true →
      Timeout.modify t d
        = .error (.jobError ["Trying to modify a protected timeout: %s.", t.name]))
    ∧ (t.«protected» = false →
      Timeout.modify t d = .ok { t with duration := max (min OVERRIDE_CLAMP_DURATION d) 1 })
    ∧ (t.«protected» = false → OVERRIDE_CLAMP_DURATION < d →
      Timeout.modify t d = .ok { t with duration := OVERRIDE_CLAMP_DURATION })
    ∧ (t.«protected» = false → d < 1 →
      Timeout.modify t d = .ok { t with duration := 1 })
    ∧ (t.«protected» = false → 1 ≤ d → d ≤ OVERRIDE_CLAMP_DURATION →
      Timeout.modify t d = .ok { t with duration := d }) := by
  have hclamp : (1 : Int) ≤ OVERRIDE_CLAMP_DURATION := by decide
  refine ⟨fun h => ?_, fun h => ?_, fun h hd => ?_, fun h hd => ?_, fun h h1 h2 => ?_⟩ <;>
    simp only [Timeout.modify, h, if_true, if_false, Bool.false_eq_true, reduceIte]
  · have : max (min OVERRIDE_CLAMP_DURATION d) 1 = OVERRIDE_CLAMP_DURATION := by omega
    rw [this]
  · have : max (min OVERRIDE_CLAMP_DURATION d) 1 = 1 := by omega
    rw [this]
  · have : max (min OVERRIDE_CLAMP_DURATION d) 1 = d := by omega
    rw [this]

/-- C7 witness: the amended theorem applied at concrete inputs. -/
theorem C7_modify_witness :
    Timeout.modify { name := "boot", duration := 30, «protected» := false } 50
      = .ok { name := "boot", duration := 50, «protected» := false }
    ∧ Timeout.modify { name := "boot", duration := 30, «protected» := false } (-7)
      = .ok { name := "boot", duration := 1, «protected» := false } :=
  ⟨(C7_modify { name := "boot", duration := 30, «protected» := false } 50).2.2.2.2
      rfl (by decide) (by decide),
   (C7_modify { name := "boot", duration := 30, «protected» := false } (-7)).2.2.2.1
      rfl (by decide)⟩

/-- C10: `Timeout.parse` raises `RuntimeError` on non-mapping input; a mapping
whose days/hours/minutes/seconds sum to zero yields `default_duration`, and
any other mapping yields `days*86400 + hours*3600 + minutes*60 + seconds`. -/
theorem C10_parse (d : TimeoutData) :
    Timeout.parse .nonDict = .error (.runtimeError ["Invalid timeout data"])
    ∧ (d.totalSeconds = 0 → Timeout.parse (.dict d) = .ok Timeout.default_duration)
    ∧ (d.totalSeconds ≠ 0 → Timeout.parse (.dict d) = .ok d.totalSeconds) := by
  refine ⟨rfl, fun h => ?_, fun h => ?_⟩ <;> simp [Timeout.parse, Timeout.parseDict, h]

/-- C10 witness: the empty mapping and `{seconds: 0}` give `default_duration`;
a non-zero mapping gives the component sum. -/
theorem C10_parse_witness :
    Timeout.parse (.dict {}) = .ok Timeout.default_duration
    ∧ Timeout.parse (.dict { seconds := some 0 }) = .ok Timeout.default_duration
    ∧ Timeout.parse (.dict { days := some 1, hours := some 2, minutes := some 3, seconds := some 4 }) = .ok 93784 :=
  ⟨(C10_parse {}).2.1 (by decide),
   (C10_parse { seconds := some 0 }).2.1 (by decide),
   (C10_parse { days := some 1, hours := some 2, minutes := some 3, seconds := some 4 }).2.2
      (by decide)⟩

/-- The slice of an action's `parameters` dictionary that `Pipeline.add_action`
and `Action.__set_parameters__` inspect.  An absent key is `none`; the source
line `parameters['timeout'] = overrides[action.name]` becomes a field update. -/
structure Params where
  timeout : Option TimeoutData := none
  connection_timeout : Option TimeoutData := none
  default_connection_timeout : Option Int := none
  failure_retry : Option Int := none
  «repeat» : Option Int := none
  deriving DecidableEq, Repr

/-- A `timeouts` override mapping (from the device descriptor or from the job
parameters): the optional `actions` and `connections` sub-mappings, plus the
entries keyed directly by action name at the top level.  Values are typed as
timeout mappings: a non-mapping value would make `Timeout.parse` raise, a path
outside every claim. -/
structure TimeoutOverrides where
  actions : Option (List (String × TimeoutData)) := none
  connections : Option (List (String × TimeoutData)) := none
  flat : List (String × TimeoutData) := []
  deriving DecidableEq, Repr

/-- Dictionary lookup: `mapping[name]` guarded by `name in mapping`. -/
def dictGet (m : List (String × TimeoutData)) (k : String) : Option TimeoutData :=
  (m.find? (fun p => p.1 == k)).map (·.2)

/-- The slice of the Job read during pipeline construction.  Modelled from the
spec as far as the `Job` class goes (`lava_dispatcher/job.py` is not under
src): `deviceTimeouts` is `job.device.get('timeouts', {})` (`none` when
`job.device` is `None`), `timeouts` is `job.parameters['timeouts']` when that
key is present. -/
structure JobCfg where
  deviceTimeouts : Option TimeoutOverrides := none
  timeouts : Option TimeoutOverrides := none
  deriving DecidableEq, Repr

/-- The attributes of `Action` touched by the construction path
(`Pipeline.add_action` / `Action.__set_parameters__`).  `errors` is the
underlying append-only list (the actions built here carry no internal
pipeline, so the `errors` property coincides with it). -/
structure Action where
  name : String
  job : Option JobCfg := none
  level : Option String := none
  «section» : Option String := none
  timeout : Timeout
  connection_timeout : Timeout
  max_retries : Int := 1
  errors : List String := []
  «parameters» : Params := {}
  deriving DecidableEq, Repr

/-- `Action.__init__`: both timeouts are fresh `Timeout(self.name)` instances
with the default duration and no protection. -/
def Action.init (name : String) : Action :=
  { name := name, timeout := { name := name }, connection_timeout := { name := name } }

/-- `Action.valid`: no non-empty entry in `errors`
(`len([x for x in self.errors if x]) == 0`). -/
def Action.valid (a : Action) : Bool :=
  (a.errors.filter (fun s => s != "")).length == 0

/-- `Action._override_action_timeout`: replaces the action timeout with a
fresh unprotected `Timeout` parsed from the override entry for this name.
The `isinstance` guard is vacuous here (the table is typed as a mapping), and
the callers in `add_action` only pass tables containing the name. -/
def Action._override_action_timeout (a : Action) (override : List (String × TimeoutData)) :
    Action :=
  match dictGet override a.name with
  | some v => { a with timeout := { name := a.name, duration := Timeout.parseDict v } }
  | none => a

/-- `Action._override_connection_timeout`, same shape for the connection
timeout. -/
def Action._override_connection_timeout (a : Action)
    (override : List (String × TimeoutData)) : Action :=
  match dictGet override a.name with
  | some v => { a with connection_timeout := { name := a.name, duration := Timeout.parseDict v } }
  | none => a

/-- `Action.__set_parameters__`.  The actions built here start with an empty
parameter dictionary, so `self.__parameters__.update(data)` amounts to
assignment.  The trailing `character_delays` lookup only sets the unmodelled
`character_delay` attribute and is outside every claim. -/
def Action.set_parameters (a : Action) (data : Params) : Action :=
  let a := { a with «parameters» := data }
  let a := { a with timeout := { a.timeout with name := a.name } }
  let a :=
    match data.timeout with
    | some td =>
      if a.timeout.duration = Timeout.default_duration then
        { a with timeout := { a.timeout with duration := Timeout.parseDict td } }
      else a
    | none => a
  let a :=
    match data.connection_timeout with
    | some cd => { a with connection_timeout := { a.connection_timeout with duration := Timeout.parseDict cd } }
    | none => a
  let a :=
    if data.failure_retry.isSome && data.«repeat».isSome then
      { a with errors := a.errors ++ ["Unable to use repeat and failure_retry, use a repeat block"] }
    else a
  let a :=
    match data.failure_retry with
    | some v => { a with max_retries := v }
    | none => a
  let a :=
    match data.«repeat» with
    | some v => { a with max_retries := v }
    | none => a
  a

/-- The pipeline attributes the construction path reads.  `branch_level` holds
the `%s`-formatted form of what the source stores (the int `1` at root, the
parent level string otherwise). -/
structure Pipeline where
  parent : Option Action := none
  job : Option JobCfg := none
  actions : List Action := []
  «parameters» : Params := {}
  branch_level : String := "1"
  deriving DecidableEq, Repr

/-- `Pipeline.__init__`: a parent action whose level is unset (falsy: `None`
or the empty string) is a `RuntimeError`; otherwise the child pipeline takes
`branch_level` from the parent level and the job from the parent when the
parent has one. -/
def Pipeline.init (parent : Option Action) (job : Option JobCfg)
    (parameters : Option Params) : Except Exc Pipeline :=
  let params := parameters.getD {}
  match parent with
  | none => .ok { parent := none, job := job, «parameters» := params }
  | some p =>
    match p.level with
    | none =>
      .error (.runtimeError ["Tried to create a pipeline using a parent action with no level set."])
    | some lv =>
      if lv = "" then
        .error (.runtimeError ["Tried to create a pipeline using a parent action with no level set."])
      else
        .ok { parent := some p, job := match p.job with | some j => some j | none => job,
              «parameters» := params, branch_level := lv }

/-- One `timeouts` override block of `Pipeline.add_action` (the device block
and the job block have the same shape; only the job block has the final
`elif 'timeout' in parameters` arm, selected by `jobLevel`).  In the flat arm
the source passes the whole mapping to `_override_action_timeout`, which
indexes it by the action name, so passing the name-keyed entries is the same
lookup. -/
def applyTimeoutOverrides (a : Action) (params : Params) (ovr : TimeoutOverrides)
    (jobLevel : Bool) : Action × Params :=
  let flatOr : Action × Params :=
    match dictGet ovr.flat a.name with
    | some v => (a._override_action_timeout ovr.flat, { params with timeout := some v })
    | none =>
      match jobLevel, params.timeout with
      | true, some td =>
        ({ a with timeout := { a.timeout with duration := Timeout.parseDict td } }, params)
      | _, _ => (a, params)
  let step1 : Action × Params :=
    match ovr.actions with
    | some tbl =>
      if (dictGet tbl a.name).isSome then (a._override_action_timeout tbl, params) else flatOr
    | none => flatOr
  let a2 : Action :=
    match ovr.connections with
    | some ctbl =>
      if (dictGet ctbl step1.1.name).isSome then step1.1._override_connection_timeout ctbl
      else step1.1
    | none => step1.1
  (a2, step1.2)

/-- `Pipeline.add_action`.  The level is assigned right after the append and
overwritten in the no-parent branch; the base `populate` is a no-op; the
`children`/`pipeline` bookkeeping and logging have no observable effect on the
attributes modelled here.  Returns the extended pipeline and the appended
action (the same object the source mutates in place). -/
def Pipeline.add_action (pl : Pipeline) (action : Action) (parameters? : Option Params) :
    Pipeline × Action :=
  let k := pl.actions.length + 1
  let action := { action with level := some (pl.branch_level ++ "." ++ toString k) }
  let action := match pl.job with
    | some _ => { action with job := pl.job }
    | none => action
  let action := match pl.parent with
    | some p => { action with «section» := p.«section» }
    | none => { action with level := some (toString k) }
  let params0 := parameters?.getD pl.«parameters»
  let action := match params0.default_connection_timeout with
    | some secs =>
      { action with connection_timeout := { action.connection_timeout with duration := secs } }
    | none => action
  let devStep : Action × Params := match pl.job with
    | some j =>
      match j.deviceTimeouts with
      | some ovr => applyTimeoutOverrides action params0 ovr false
      | none => (action, params0)
    | none => (action, params0)
  let jobStep : Action × Params := match pl.job with
    | some j =>
      match j.timeouts with
      | some ovr => applyTimeoutOverrides devStep.1 devStep.2 ovr true
      | none => devStep
    | none => devStep
  let action := jobStep.1.set_parameters jobStep.2
  ({ pl with actions := pl.actions ++ [action] }, action)

theorem override_action_timeout_level (a : Action) (t : List (String × TimeoutData)) :
    (a._override_action_timeout t).level = a.level := by
  unfold Action._override_action_timeout; split <;> rfl

theorem override_connection_timeout_level (a : Action) (t : List (String × TimeoutData)) :
    (a._override_connection_timeout t).level = a.level := by
  unfold Action._override_connection_timeout; split <;> rfl

theorem applyTimeoutOverrides_level (a : Action) (p : Params) (o : TimeoutOverrides)
    (j : Bool) : ((applyTimeoutOverrides a p o j).1).level = a.level := by
  simp only [applyTimeoutOverrides]
  repeat' split
  all_goals simp [override_action_timeout_level, override_connection_timeout_level]

theorem set_parameters_level (a : Action) (d : Params) :
    (a.set_parameters d).level = a.level := by
  simp only [Action.set_parameters]
  repeat' split
  all_goals rfl

/-- The level the appended action ends up with, by parent case. -/
theorem add_action_result_level (pl : Pipeline) (a : Action) (ps : Option Params) :
    ((pl.add_action a ps).2).level =
      (match pl.parent with
      | none => some (toString (pl.actions.length + 1))
      | some _ => some (pl.branch_level ++ "." ++ toString (pl.actions.length + 1))) := by
  simp only [Pipeline.add_action, set_parameters_level]
  rcases hjob : pl.job with _ | j <;> rcases hpar : pl.parent with _ | p <;>
    simp only [hjob, hpar]
  · rcases hdc : (ps.getD pl.«parameters»).default_connection_timeout with _ | secs <;>
      simp [hdc]
  · rcases hdc : (ps.getD pl.«parameters»).default_connection_timeout with _ | secs <;>
      simp [hdc]
  · rcases hdev : j.deviceTimeouts with _ | ovr <;> rcases hto : j.timeouts with _ | ovr2 <;>
      simp only [hdev, hto, applyTimeoutOverrides_level] <;>
      rcases hdc : (ps.getD pl.«parameters»).default_connection_timeout with _ | secs <;>
      simp [hdc, applyTimeoutOverrides_level]
  · rcases hdev : j.deviceTimeouts with _ | ovr <;> rcases hto : j.timeouts with _ | ovr2 <;>
      simp only [hdev, hto, applyTimeoutOverrides_level] <;>
      rcases hdc : (ps.getD pl.«parameters»).default_connection_timeout with _ | secs <;>
      simp [hdc, applyTimeoutOverrides_level]

/-- C6 counterexample: on a root pipeline (no parent, `branch_level = 1`), the
first appended action gets level `"1"`, not the claimed
`"{branch_level}.{k}" = "1.1"`. -/
theorem C6_counterexample :
    ((Pipeline.add_action {} (Action.init "download") none).2).level = some "1"
    ∧ "1" ≠ "1.1" :=
  ⟨rfl, by decide⟩

/-- C6 (amended): appending the k-th action assigns its level `"{k}"` when the
pipeline has no parent, and `"{branch_level}.{k}"` when it has one, where a
child pipeline's `branch_level` is its parent action's level (established by
`Pipeline.__init__`); the level is in place when `add_action` returns. -/
theorem C6_level_assignment (pl : Pipeline) (a : Action) (ps : Option Params) :
    (pl.parent = none →
      ((pl.add_action a ps).2).level = some (toString (pl.actions.length + 1)))
    ∧ (∀ p, pl.parent = some p →
      ((pl.add_action a ps).2).level
        = some (pl.branch_level ++ "." ++ toString (pl.actions.length + 1)))
    ∧ (∀ (p : Action) (lv : String) (jb : Option JobCfg) (prm : Option Params),
      p.level = some lv → lv ≠ "" →
      ∃ pl', Pipeline.init (some p) jb prm = .ok pl'
        ∧ pl'.branch_level = lv ∧ pl'.parent = some p) := by
  refine ⟨fun h => ?_, fun p h => ?_, fun p lv jb prm hlv hne => ?_⟩
  · rw [add_action_result_level, h]
  · rw [add_action_result_level, h]
  · refine ⟨{ parent := some p, job := match p.job with | some j => some j | none => jb, «parameters» := prm.getD {}, branch_level := lv }, ?_, rfl, rfl⟩
    simp [Pipeline.init, hlv, hne]

/-- C6 witness for the amended statement: a concrete root pipeline and a
concrete child pipeline built from a parent at level `"2"`. -/
theorem C6_level_assignment_witness :
    ((Pipeline.add_action {} (Action.init "deploy") none).2).level = some "1"
    ∧ ((Pipeline.add_action { parent := some { Action.init "boot" with level := some "2" }, branch_level := "2" } (Action.init "download") none).2).level = some "2.1"
    ∧ ∃ pl', Pipeline.init (some { Action.init "boot" with level := some "2" }) none none = .ok pl'
        ∧ pl'.branch_level = "2" ∧ pl'.parent = some { Action.init "boot" with level := some "2" } :=
  ⟨(C6_level_assignment {} (Action.init "deploy") none).1 rfl,
   (C6_level_assignment { parent := some { Action.init "boot" with level := some "2" }, branch_level := "2" } (Action.init "download") none).2.1 _ rfl,
   (C6_level_assignment {} (Action.init "x") none).2.2 { Action.init "boot" with level := some "2" } "2" none none rfl (by decide)⟩

/-- The device `timeouts` block of the C4 failing input: a flat
(top-of-mapping) override for `boot` of `default_duration + 20` seconds. -/
def c4Device : TimeoutOverrides :=
  { flat := [("boot", { seconds := some (Timeout.default_duration + 20) })] }

/-- The job side of the C4 failing input: an `actions` sub-mapping override
for `boot` that parses to exactly `Timeout.default_duration`. -/
def c4Job : JobCfg :=
  { deviceTimeouts := some c4Device,
    timeouts := some { actions := some [("boot", { seconds := some Timeout.default_duration })] } }

/-- C4: with both a job override and a device override present for `boot`, the
resolved duration is the device value (`default_duration + 20`), not the job
value (`default_duration`): the flat device branch wrote
`parameters['timeout']`, and `__set_parameters__` re-applies it because the
job override equals the constructor default.  This evaluates
`Pipeline.add_action` at the failing input. -/
theorem C4_failing_input_eval :
    ((Pipeline.add_action { job := some c4Job } (Action.init "boot") none).2).timeout.duration
      = Timeout.default_duration + 20
    ∧ Timeout.default_duration + 20
      ≠ Timeout.parseDict { seconds := some Timeout.default_duration } :=
  ⟨rfl, by decide⟩

theorem set_parameters_errors (a : Action) (d : Params) :
    (a.set_parameters d).errors =
      if d.failure_retry.isSome && d.«repeat».isSome then
        a.errors ++ ["Unable to use repeat and failure_retry, use a repeat block"]
      else a.errors := by
  simp only [Action.set_parameters]
  repeat' split
  all_goals simp_all

theorem set_parameters_max_retries (a : Action) (d : Params) :
    (a.set_parameters d).max_retries =
      (match d.«repeat» with
      | some v => v
      | none =>
        match d.failure_retry with
        | some v => v
        | none => a.max_retries) := by
  simp only [Action.set_parameters]
  repeat' split
  all_goals simp_all

/-- C9: assigning parameters that contain both `failure_retry` and `repeat`
records the validation error (the errors list becomes non-empty and the action
is no longer valid); with exactly one of the two keys, `max_retries` becomes
that key's value. -/
theorem C9_retry_parameters (a : Action) (d : Params) :
    (d.failure_retry.isSome = true → d.«repeat».isSome = true →
      (a.set_parameters d).errors ≠ [] ∧ (a.set_parameters d).valid = false)
    ∧ (∀ v : Int, d.failure_retry = some v → d.«repeat» = none →
      (a.set_parameters d).max_retries = v)
    ∧ (∀ v : Int, d.«repeat» = some v → d.failure_retry = none →
      (a.set_parameters d).max_retries = v) := by
  refine ⟨fun h1 h2 => ⟨?_, ?_⟩, fun v h1 h2 => ?_, fun v h1 h2 => ?_⟩
  · simp [set_parameters_errors, h1, h2]
  · simp [Action.valid, set_parameters_errors, h1, h2, List.filter_append]
  · simp [set_parameters_max_retries, h1, h2]
  · simp [set_parameters_max_retries, h1, h2]

/-- C9 witness: both keys present on a fresh action yields the recorded error
and invalidity; each key alone sets `max_retries`. -/
theorem C9_retry_parameters_witness :
    ((Action.init "boot").set_parameters { failure_retry := some 2, «repeat» := some 3 }).errors ≠ []
    ∧ ((Action.init "boot").set_parameters { failure_retry := some 2, «repeat» := some 3 }).valid = false
    ∧ ((Action.init "boot").set_parameters { failure_retry := some 2 }).max_retries = 2
    ∧ ((Action.init "boot").set_parameters { «repeat» := some 3 }).max_retries = 3 :=
  ⟨((C9_retry_parameters (Action.init "boot") { failure_retry := some 2, «repeat» := some 3 }).1 rfl rfl).1,
   ((C9_retry_parameters (Action.init "boot") { failure_retry := some 2, «repeat» := some 3 }).1 rfl rfl).2,
   (C9_retry_parameters (Action.init "boot") { failure_retry := some 2 }).2.1 2 rfl rfl,
   (C9_retry_parameters (Action.init "boot") { «repeat» := some 3 }).2.2 3 rfl rfl⟩

/-- Truthiness of an optional string attribute (`not self.attr`): unset or
empty is falsy. -/
def pyFalsy : Option String → Bool
  | none => true
  | some s => s == ""

/-- The attributes of `Action` read by `Action.validate`, with the underlying
append-only `__errors__` list. -/
structure VCore where
  name : Option String := none
  summary : Option String := none
  description : Option String := none
  «section» : Option String := none
  errors : List String := []
  deriving DecidableEq, Repr

mutual
/-- An action as seen by validation: its checked attributes and its optional
internal pipeline. -/
inductive VTree where
  | node (core : VCore) (internal : Option VForest)
/-- The ordered actions of a pipeline. -/
inductive VForest where
  | nil
  | cons (t : VTree) (ts : VForest)
end

mutual
/-- The `Action.errors` property: `__errors__` plus the internal pipeline's
errors when there is one. -/
def VTree.errorsProp : VTree → List String
  | .node c none => c.errors
  | .node c (some f) => c.errors ++ VForest.errorsProp f
/-- The `Pipeline.errors` property: the concatenation, in order, of every
child action's `errors` (`reduce` of list addition, `[]` when empty). -/
def VForest.errorsProp : VForest → List String
  | .nil => []
  | .cons t ts => VTree.errorsProp t ++ VForest.errorsProp ts
end

mutual
/-- All action cores of a tree in depth-first (preorder) order. -/
def VTree.nodes : VTree → List VCore
  | .node c none => [c]
  | .node c (some f) => c :: VForest.nodes f
/-- All action cores of a forest in depth-first order. -/
def VForest.nodes : VForest → List VCore
  | .nil => []
  | .cons t ts => VTree.nodes t ++ VForest.nodes ts
end

mutual
/-- Every action in the tree has its `name` attribute set (possibly empty:
only `None` makes `Action.validate` crash, see `VTree.validate`). -/
def VTree.allNamed : VTree → Bool
  | .node c none => c.name.isSome
  | .node c (some f) => c.name.isSome && VForest.allNamed f
def VForest.allNamed : VForest → Bool
  | .nil => true
  | .cons t ts => VTree.allNamed t && VForest.allNamed ts
end

/-- A locally well-formed action: every checked attribute set and non-empty,
no whitespace in the name, and no error recorded yet. -/
def VCore.wellFormed (c : VCore) : Bool :=
  (match c.name with | some nm => !(nm == "") && !(nm.data.contains ' ') | none => false)
    && (match c.summary with | some s => !(s == "") | none => false)
    && (match c.description with | some s => !(s == "") | none => false)
    && (match c.«section» with | some s => !(s == "") | none => false)
    && c.errors.isEmpty

mutual
def VTree.wellFormed : VTree → Bool
  | .node c none => c.wellFormed
  | .node c (some f) => c.wellFormed && VForest.wellFormed f
def VForest.wellFormed : VForest → Bool
  | .nil => true
  | .cons t ts => VTree.wellFormed t && VForest.wellFormed ts
end

mutual
/-- `Action.validate`.  The context argument is the key set of
`self.job.context` (only `setdefault(self.name, {})` touches it here).  With
`name` unset, the first check appends its error and the following
`' ' in self.name` then raises `TypeError` (the source comment believes the
`None` case cannot reach this line, but the first check does not return).
The final `self.errors.extend(internal_pipeline.errors)` calls `extend` on
the fresh list returned by the `errors` property, so it leaves `__errors__`
unchanged and is therefore absent here. -/
def VTree.validate (ctx : List String) : VTree → Except Exc (List String × VTree)
  | .node c internal =>
    let errs1 := if pyFalsy c.name then c.errors ++ ["%s action has no name set"] else c.errors
    match c.name with
    | none => .error (.typeError ["argument of type NoneType is not iterable"])
    | some nm =>
      let errs2 :=
        if nm.data.contains ' ' then
          errs1 ++ ["Whitespace must not be used in action names, only descriptions or summaries: %s"]
        else errs1
      let errs3 := if pyFalsy c.summary then errs2 ++ ["action %s (%s) lacks a summary"] else errs2
      let errs4 :=
        if pyFalsy c.description then errs3 ++ ["action %s (%s) lacks a description"] else errs3
      let errs5 := if pyFalsy c.«section» then errs4 ++ ["%s action has no section set"] else errs4
      let ctx1 := if ctx.contains nm then ctx else ctx ++ [nm]
      match internal with
      | none => .ok (ctx1, .node { c with errors := errs5 } none)
      | some f =>
        match VForest.validateAll ctx1 f with
        | .error e => .error e
        | .ok (ctx2, f2) => .ok (ctx2, .node { c with errors := errs5 } (some f2))
/-- The loop of `Pipeline.validate_actions` (shared by internal pipelines,
whose `parent` is set, so they never reach the root `JobError`). -/
def VForest.validateAll (ctx : List String) : VForest → Except Exc (List String × VForest)
  | .nil => .ok (ctx, .nil)
  | .cons t ts =>
    match VTree.validate ctx t with
    | .error e => .error e
    | .ok (ctx1, t1) =>
      match VForest.validateAll ctx1 ts with
      | .error e => .error e
      | .ok (ctx2, ts1) => .ok (ctx2, .cons t1 ts1)
end

/-- Python `repr` of a list of strings, as `%s`-formatting embeds it in a
message (quotes written via `\x27`). -/
def pyReprStrList (l : List String) : String :=
  "[" ++ String.intercalate ", " (l.map (fun s => "\x27" ++ s ++ "\x27")) ++ "]"

/-- The message of `JobError("Invalid job data: %s\n" % self.errors)`. -/
def invalidJobDataMsg (errs : List String) : String :=
  "Invalid job data: " ++ pyReprStrList errs ++ "\x0a"

/-- `Pipeline.validate_actions` on the root pipeline (`parent is None`):
validate every child, then raise `JobError` when the aggregated `errors`
property is non-empty (list truthiness). -/
def Pipeline.validate_actions (ctx : List String) (f : VForest) :
    Except Exc (List String × VForest) :=
  match VForest.validateAll ctx f with
  | .error e => .error e
  | .ok (ctx1, f1) =>
    if VForest.errorsProp f1 ≠ [] then
      .error (.jobError [invalidJobDataMsg (VForest.errorsProp f1)])
    else .ok (ctx1, f1)

mutual
theorem VTree.validate_ok_of_named : ∀ (ctx : List String) (t : VTree),
    VTree.allNamed t = true → ∃ p, VTree.validate ctx t = .ok p
  | ctx, .node c none, h => by
    obtain ⟨nm, hnm⟩ : ∃ nm, c.name = some nm :=
      Option.isSome_iff_exists.mp (by simpa [VTree.allNamed] using h)
    simp only [VTree.validate, hnm]
    exact ⟨_, rfl⟩
  | ctx, .node c (some f), h => by
    rw [VTree.allNamed, Bool.and_eq_true] at h
    obtain ⟨nm, hnm⟩ : ∃ nm, c.name = some nm := Option.isSome_iff_exists.mp h.1
    obtain ⟨⟨ctx2, f2⟩, hok⟩ :=
      VForest.validateAll_ok_of_named (if ctx.contains nm then ctx else ctx ++ [nm]) f h.2
    simp only [VTree.validate, hnm, hok]
    exact ⟨_, rfl⟩
theorem VForest.validateAll_ok_of_named : ∀ (ctx : List String) (f : VForest),
    VForest.allNamed f = true → ∃ p, VForest.validateAll ctx f = .ok p
  | ctx, .nil, _ => ⟨(ctx, .nil), rfl⟩
  | ctx, .cons t ts, h => by
    rw [VForest.allNamed, Bool.and_eq_true] at h
    obtain ⟨⟨c1, t1⟩, h1⟩ := VTree.validate_ok_of_named ctx t h.1
    obtain ⟨⟨c2, ts1⟩, h2⟩ := VForest.validateAll_ok_of_named c1 ts h.2
    simp only [VForest.validateAll, h1, h2]
    exact ⟨_, rfl⟩
end

mutual
theorem tree_errorsProp_eq_nodes : ∀ t : VTree,
    VTree.errorsProp t = ((VTree.nodes t).map VCore.errors).flatten
  | .node c none => by simp [VTree.errorsProp, VTree.nodes]
  | .node c (some f) => by
    simp [VTree.errorsProp, VTree.nodes, forest_errorsProp_eq_nodes f]
theorem forest_errorsProp_eq_nodes : ∀ f : VForest,
    VForest.errorsProp f = ((VForest.nodes f).map VCore.errors).flatten
  | .nil => by simp [VForest.errorsProp, VForest.nodes]
  | .cons t ts => by
    simp [VForest.errorsProp, VForest.nodes, tree_errorsProp_eq_nodes t,
      forest_errorsProp_eq_nodes ts]
end

/-- Unpacking `VCore.wellFormed` into the facts the validation checks use. -/
theorem VCore.wellFormed_spec (c : VCore) (h : c.wellFormed = true) :
    ∃ nm, c.name = some nm ∧ (nm == "") = false ∧ nm.data.contains ' ' = false
      ∧ pyFalsy c.name = false ∧ pyFalsy c.summary = false ∧ pyFalsy c.description = false
      ∧ pyFalsy c.«section» = false ∧ c.errors = [] := by
  unfold VCore.wellFormed at h
  rcases hn : c.name with _ | nm <;> rw [hn] at h <;>
    rcases hs : c.summary with _ | s <;> rw [hs] at h <;>
    rcases hd : c.description with _ | d <;> rw [hd] at h <;>
    rcases hc : c.«section» with _ | sec <;> rw [hc] at h <;>
    simp_all [pyFalsy]

mutual
theorem VTree.validate_wellFormed : ∀ (ctx : List String) (t : VTree),
    VTree.wellFormed t = true → ∃ c1, VTree.validate ctx t = .ok (c1, t)
  | ctx, .node c none, h => by
    have hw : c.wellFormed = true := by simpa [VTree.wellFormed] using h
    obtain ⟨nm, hnm, hne, hsp, hf1, hf2, hf3, hf4, herr⟩ := VCore.wellFormed_spec c hw
    rw [hnm] at hf1
    refine ⟨if ctx.contains nm then ctx else ctx ++ [nm], ?_⟩
    simp only [VTree.validate, hnm, hf1, hf2, hf3, hf4, hsp, if_false, Bool.false_eq_true,
      reduceIte]
    rw [← hnm]
  | ctx, .node c (some f), h => by
    rw [VTree.wellFormed, Bool.and_eq_true] at h
    obtain ⟨nm, hnm, hne, hsp, hf1, hf2, hf3, hf4, herr⟩ := VCore.wellFormed_spec c h.1
    rw [hnm] at hf1
    obtain ⟨ctx2, hok⟩ :=
      VForest.validateAll_wellFormed (if ctx.contains nm then ctx else ctx ++ [nm]) f h.2
    refine ⟨ctx2, ?_⟩
    simp only [VTree.validate, hnm, hf1, hf2, hf3, hf4, hsp, if_false, Bool.false_eq_true,
      reduceIte, hok]
    rw [← hnm]
theorem VForest.validateAll_wellFormed : ∀ (ctx : List String) (f : VForest),
    VForest.wellFormed f = true → ∃ c1, VForest.validateAll ctx f = .ok (c1, f)
  | ctx, .nil, _ => ⟨ctx, rfl⟩
  | ctx, .cons t ts, h => by
    rw [VForest.wellFormed, Bool.and_eq_true] at h
    obtain ⟨c1, h1⟩ := VTree.validate_wellFormed ctx t h.1
    obtain ⟨c2, h2⟩ := VForest.validateAll_wellFormed c1 ts h.2
    exact ⟨c2, by simp only [VForest.validateAll, h1, h2]⟩
end

mutual
theorem tree_nodes_errors_empty_of_wf : ∀ t : VTree, VTree.wellFormed t = true →
    ((VTree.nodes t).all (fun c => c.errors.isEmpty)) = true
  | .node c none, h => by
    have hw : c.wellFormed = true := by simpa [VTree.wellFormed] using h
    obtain ⟨_, _, _, _, _, _, _, _, herr⟩ := VCore.wellFormed_spec c hw
    simp [VTree.nodes, herr]
  | .node c (some f), h => by
    rw [VTree.wellFormed, Bool.and_eq_true] at h
    obtain ⟨_, _, _, _, _, _, _, _, herr⟩ := VCore.wellFormed_spec c h.1
    simp [VTree.nodes, herr, forest_nodes_errors_empty_of_wf f h.2]
theorem forest_nodes_errors_empty_of_wf : ∀ f : VForest, VForest.wellFormed f = true →
    ((VForest.nodes f).all (fun c => c.errors.isEmpty)) = true
  | .nil, _ => rfl
  | .cons t ts, h => by
    rw [VForest.wellFormed, Bool.and_eq_true] at h
    simp [VForest.nodes, tree_nodes_errors_empty_of_wf t h.1,
      forest_nodes_errors_empty_of_wf ts h.2]
end

/-- Discriminator used to state that a raised exception is not a `JobError`. -/
def Exc.isJobErrorExc : Exc → Bool
  | .jobError _ => true
  | _ => false

/-- C3 counterexample: a root pipeline containing one action whose `name` is
unset.  `validate` appends "no name set" to the action's errors, but then the
`' ' in self.name` membership test raises `TypeError`, so `validate_actions`
raises `TypeError`, not the claimed `JobError` aggregation. -/
theorem C3_counterexample :
    Pipeline.validate_actions [] (.cons (.node {} none) .nil)
      = .error (.typeError ["argument of type NoneType is not iterable"])
    ∧ (Exc.typeError ["argument of type NoneType is not iterable"]).isJobErrorExc = false :=
  ⟨rfl, rfl⟩

/-- C3 (amended): provided every action's `name` attribute is set (a string),
root `validate_actions` validates every child depth-first, raises
`JobError("Invalid job data: ...")` carrying every descendant action's
collected error exactly once (the aggregated list equals the concatenation of
the per-node error lists in depth-first order) whenever any error was
collected, returns normally otherwise, and on a well-formed tree raises
nothing and leaves every action's errors list empty.  An action whose name is
`None` instead makes `Action.validate` raise `TypeError`. -/
theorem C3_validate_actions (ctx : List String) (f : VForest)
    (h : VForest.allNamed f = true) :
    ∃ ctx1 f1,
      VForest.validateAll ctx f = .ok (ctx1, f1)
      ∧ (VForest.errorsProp f1 = [] → Pipeline.validate_actions ctx f = .ok (ctx1, f1))
      ∧ (VForest.errorsProp f1 ≠ [] →
          Pipeline.validate_actions ctx f
            = .error (.jobError [invalidJobDataMsg (VForest.errorsProp f1)]))
      ∧ VForest.errorsProp f1 = ((VForest.nodes f1).map VCore.errors).flatten
      ∧ (VForest.wellFormed f = true →
          f1 = f ∧ ((VForest.nodes f1).all (fun c => c.errors.isEmpty)) = true) := by
  obtain ⟨⟨ctx1, f1⟩, hok⟩ := VForest.validateAll_ok_of_named ctx f h
  refine ⟨ctx1, f1, hok, fun he => ?_, fun he => ?_, forest_errorsProp_eq_nodes f1, fun hw => ?_⟩
  · simp [Pipeline.validate_actions, hok, he]
  · simp [Pipeline.validate_actions, hok, he]
  · obtain ⟨ctx2, hok2⟩ := VForest.validateAll_wellFormed ctx f hw
    rw [hok2] at hok
    have hpair : (ctx2, f) = (ctx1, f1) := by injection hok
    have hf : f1 = f := (congrArg Prod.snd hpair).symm
    subst hf
    exact ⟨rfl, forest_nodes_errors_empty_of_wf _ hw⟩

/-- A malformed but fully named action (missing summary) for the C3 witness. -/
def c3Bad : VForest :=
  .cons (.node { name := some "deploy", description := some "d", «section» := some "boot" } none) .nil

/-- A well-formed action for the C3 witness. -/
def c3Good : VForest :=
  .cons (.node { name := some "deploy", summary := some "s", description := some "d", «section» := some "boot" } none) .nil

/-- C3 witness: on the malformed forest the root raises the `JobError`
aggregation with the single collected error; on the well-formed forest it
returns normally with no errors recorded. -/
theorem C3_validate_actions_witness :
    Pipeline.validate_actions [] c3Bad
      = .error (.jobError [invalidJobDataMsg ["action %s (%s) lacks a summary"]])
    ∧ Pipeline.validate_actions [] c3Good = .ok (["deploy"], c3Good) := by
  constructor
  · obtain ⟨ctx1, f1, hok, hemp, hne, hjoin, hwf⟩ := C3_validate_actions [] c3Bad (by decide)
    have hcalc : VForest.validateAll [] c3Bad
        = .ok (["deploy"],
          .cons (.node { name := some "deploy", description := some "d", «section» := some "boot", errors := ["action %s (%s) lacks a summary"] } none) .nil) := rfl
    rw [hcalc] at hok
    have hpair := Except.ok.inj hok
    have hf : f1 = .cons (.node { name := some "deploy", description := some "d", «section» := some "boot", errors := ["action %s (%s) lacks a summary"] } none) .nil :=
      (congrArg Prod.snd hpair).symm
    rw [hf] at hne
    exact hne (by decide)
  · obtain ⟨ctx1, f1, hok, hemp, hne, hjoin, hwf⟩ := C3_validate_actions [] c3Good (by decide)
    obtain ⟨hf, hempnodes⟩ := hwf (by decide)
    have hcalc : VForest.validateAll [] c3Good = .ok (["deploy"], c3Good) := rfl
    rw [hcalc] at hok
    have hpair := Except.ok.inj hok
    have hctx : ctx1 = ["deploy"] := (congrArg Prod.fst hpair).symm
    have hres := hemp (by rw [hf]; decide)
    rw [hctx, hf] at hres
    exact hres

/-- `JobError` / `InfrastructureError`, the domain errors of the outer
`except` clause of `run_actions`. -/
def Exc.isDomain : Exc → Bool
  | .jobError _ => true
  | .infrastructureError _ => true
  | _ => false

/-- The broad tuple of the inner `except` clause of `run_actions`
(`ValueError, KeyError, NameError, SyntaxError, OSError, TypeError,
RuntimeError, AttributeError`): of the exceptions modelled here,
`RuntimeError` and `TypeError` belong to it. -/
def Exc.isBroadCatch : Exc → Bool
  | .runtimeError _ => true
  | .typeError _ => true
  | _ => false

/-- What an action's `run(connection, args)` does, abstracting the concrete
strategy subclass (including any internal pipeline it may delegate to):
either return a connection (`none` keeps the caller's) or raise. -/
inductive Behavior where
  | success (newConn : Option Nat)
  | raises (e : Exc)
  deriving DecidableEq, Repr

/-- The attributes of a runnable action read or written by
`Pipeline.run_actions`.  `duration` is the wall-clock time its `run` takes.
`internalNames` lists the actions of its internal pipeline depth-first (for
`pipeline_cleanup`), empty when `internal_pipeline` is `None`. -/
structure RAction where
  name : String
  level : String := ""
  behavior : Behavior
  duration : Int := 0
  errors : List String := []
  elapsed_time : Option Int := none
  internalNames : List String := []
  deriving DecidableEq, Repr

/-- The slice of the Job that `run_actions` reads.  Modelled from the spec
where the `Job` class itself is concerned (`lava_dispatcher/job.py` is not
under src): `job_name` is `job.parameters.get('job_name', '?')`,
`bootResultSet` is whether `'boot-result' in job.context`, `diagnostics`
lists the complaints for which `job.diagnose` finds a `DiagnosticAction`,
and `rootActions` is `job.pipeline.actions` (the source mutates the action
objects in place; here the per-run updates are returned in `RunOut.actions`
and no claim reads an action through both views). -/
structure Job where
  job_name : String := "?"
  timeout : Option Timeout := none
  bootResultSet : Bool := false
  triggers : List String := []
  diagnostics : List String := []
  rootActions : List RAction := []
  deriving DecidableEq, Repr

/-- Observable calls the engine makes while running a pipeline, in order. -/
inductive Ev where
  | started (level name : String)
  | completedLog (name : String)
  | loggedResults (name : String)
  | diagnosed
  | cleanedUp (name : String)
  | calledCleanupActions (conn : Option Nat) (message : Option String)
  | ranAction (name : String)
  deriving DecidableEq, Repr

/-- The loop of `Pipeline._diagnose`: each queued complaint must have a
registered diagnostic (whose run, being subclass code, is abstracted as
succeeding without altering the connection); a missing one is a
`RuntimeError`. -/
def diagnoseTriggers : List String → List String → Except Exc Unit
  | [], _ => .ok ()
  | c :: rest, diags =>
    if diags.contains c then diagnoseTriggers rest diags
    else .error (.runtimeError ["No diagnosis for trigger " ++ c])

/-- `Pipeline._diagnose`: drain the trigger queue, then clear it. -/
def Pipeline._diagnose (job : Job) : Except Exc Job :=
  match diagnoseTriggers job.triggers job.diagnostics with
  | .error e => .error e
  | .ok _ => .ok { job with triggers := [] }

/-- The second loop of `Pipeline.cleanup_actions`: every root-level action
named `finalize` gets the message appended to its errors (the setter only
appends truthy values) and its `run` invoked; an exception from that run
propagates. -/
def runFinalizeLoop (message : Option String) : List RAction → Except Exc (List RAction × List Ev)
  | [] => .ok ([], [])
  | c :: rest =>
    if c.name == "finalize" then
      let c' := match message with
        | some m => if m == "" then c else { c with errors := c.errors ++ [m] }
        | none => c
      match c'.behavior with
      | .success _ =>
        match runFinalizeLoop message rest with
        | .ok (l, evs) => .ok (c' :: l, .ranAction c'.name :: evs)
        | .error e => .error e
      | .raises e => .error e
    else
      match runFinalizeLoop message rest with
      | .ok (l, evs) => .ok (c :: l, evs)
      | .error e => .error e

/-- `Pipeline.cleanup_actions` (the `if not self.job.pipeline` escape is for
job-less unit tests and is not modelled): first `pipeline_cleanup` every root
child's internal pipeline (cleanup of each internal action, depth-first),
then run the root `finalize` action(s). -/
def Pipeline.cleanup_actions (job : Job) (message : Option String) :
    Except Exc (Job × List Ev) :=
  let cleanupEvs := (job.rootActions.map (fun c => c.internalNames.map Ev.cleanedUp)).flatten
  match runFinalizeLoop message job.rootActions with
  | .ok (acts, evs) => .ok ({ job with rootActions := acts }, cleanupEvs ++ evs)
  | .error e => .error e

/-- `"Job '%s' timed out after %s seconds" % (name, int(duration))`. -/
def jobTimeoutMsg (name : String) (d : Int) : String :=
  "Job \x27" ++ name ++ "\x27 timed out after " ++ toString d ++ " seconds"

/-- The result of `Pipeline.run_actions`: the final states of the iterated
actions, the job, the trace of engine calls, the returned connection or the
propagated exception, and the clock at exit. -/
structure RunOut where
  actions : List RAction
  job : Job
  trace : List Ev
  result : Except Exc Nat
  clock : Int
  deriving Repr

/-- `Pipeline.run_actions`.  `timeoutStart` is the `time.time()` captured on
entry; `clock` the current time.  Signal-handler installation and logging are
not state; the `with action.timeout.action_timeout()` scope is part of the
abstracted `run` (its alarm behaviour is verified separately on
`Timeout.action_timeout`).  A job whose `job` attribute is `None` (unit
tests) is outside the model: the domain-error branch dereferences
`action.data` and `self.job.triggers` unconditionally. -/
def Pipeline.run_actions (isRoot : Bool) (job : Job) (timeoutStart : Int) (conn : Nat)
    (clock : Int) : List RAction → RunOut
  | [] => { actions := [], job := job, trace := [], result := .ok conn, clock := clock }
  | a :: rest =>
    let tmsg : Option String :=
      match job.timeout with
      | some t =>
        if clock > timeoutStart + t.duration then some (jobTimeoutMsg job.job_name t.duration)
        else none
      | none => none
    match tmsg with
    | some msg =>
      -- the job-global timeout fired between actions
      let a' := { a with errors := a.errors ++ [msg] }
      match job.rootActions.getLast? with
      | some fin =>
        if fin.name == "finalize" then
          match fin.behavior with
          | .success _ =>
            { actions := a' :: rest, job := job, trace := [.ranAction fin.name],
              result := .error (.jobError [msg]), clock := clock + fin.duration }
          | .raises e =>
            { actions := a' :: rest, job := job, trace := [.ranAction fin.name],
              result := .error e, clock := clock + fin.duration }
        else
          { actions := a' :: rest, job := job, trace := [],
            result := .error (.runtimeError
              ["Invalid job pipeline - no finalize action to run after job timeout."]),
            clock := clock }
      | none =>
        -- `self.job.pipeline.actions[-1]` on an empty root list raises IndexError
        { actions := a' :: rest, job := job, trace := [],
          result := .error (.typeError ["list index out of range"]), clock := clock }
    | none =>
      let startEv := Ev.started a.level a.name
      let clock' := clock + a.duration
      match a.behavior with
      | .success newConn =>
        let a' := { a with elapsed_time := some a.duration }
        let out := Pipeline.run_actions isRoot job timeoutStart (newConn.getD conn) clock' rest
        { out with actions := a' :: out.actions,
                   trace := startEv :: .completedLog a.name :: .loggedResults a.name :: out.trace }
      | .raises e =>
        match e with
        | .keyboardInterrupt =>
          let a' := { a with elapsed_time := some a.duration }
          match Pipeline.cleanup_actions job (some "Cancelled") with
          | .ok (job2, tr) =>
            { actions := a' :: rest, job := job2,
              trace := startEv :: .calledCleanupActions (some conn) (some "Cancelled") :: tr,
              result := .error (.systemExit 1), clock := clock' }
          | .error e2 =>
            { actions := a' :: rest, job := job,
              trace := [startEv, .calledCleanupActions (some conn) (some "Cancelled")],
              result := .error e2, clock := clock' }
        | e =>
          if e.isBroadCatch then
            -- engine-bug class: traceback recorded, cleanup, pipeline-wide
            -- cleanup, fatal RuntimeError carrying the action's errors
            let a' := { a with elapsed_time := some a.duration,
                               errors := a.errors ++ ["Traceback: " ++ e.message] }
            match Pipeline.cleanup_actions job none with
            | .ok (job2, tr) =>
              { actions := a' :: rest, job := job2,
                trace := startEv :: .cleanedUp a.name
                  :: .calledCleanupActions (some conn) none :: tr,
                result := .error (.runtimeError a'.errors), clock := clock' }
            | .error e2 =>
              { actions := a' :: rest, job := job,
                trace := [startEv, .cleanedUp a.name, .calledCleanupActions (some conn) none],
                result := .error e2, clock := clock' }
          else if e.isDomain then
            let exc_message := e.message
            let a' := { a with errors := a.errors ++ [exc_message],
                               elapsed_time := some a.duration }
            let job1 := if job.bootResultSet then job else { job with bootResultSet := true }
            match Pipeline._diagnose job1 with
            | .error d =>
              { actions := a' :: rest, job := job1,
                trace := [startEv, .loggedResults a.name],
                result := .error d, clock := clock' }
            | .ok job2 =>
              if isRoot then
                match Pipeline.cleanup_actions job2 (some exc_message) with
                | .ok (job3, tr) =>
                  { actions := a' :: rest, job := job3,
                    trace := startEv :: .loggedResults a.name :: .diagnosed
                      :: .cleanedUp a.name
                      :: .calledCleanupActions (some conn) (some exc_message) :: tr,
                    result := .error e, clock := clock' }
                | .error e2 =>
                  { actions := a' :: rest, job := job2,
                    trace := [startEv, .loggedResults a.name, .diagnosed, .cleanedUp a.name,
                      .calledCleanupActions (some conn) (some exc_message)],
                    result := .error e2, clock := clock' }
              else
                { actions := a' :: rest, job := job2,
                  trace := [startEv, .loggedResults a.name, .diagnosed, .cleanedUp a.name],
                  result := .error e, clock := clock' }
          else
            -- an exception matched by no clause (e.g. TestError) propagates
            -- untouched: no handler sets elapsed_time or cleans up
            { actions := a :: rest, job := job, trace := [startEv],
              result := .error e, clock := clock' }

theorem diagnoseTriggers_ok (trigs diags : List String)
    (h : ∀ c ∈ trigs, diags.contains c = true) : diagnoseTriggers trigs diags = .ok () := by
  induction trigs with
  | nil => rfl
  | cons c rest ih =>
    have hc : diags.contains c = true := h c (by simp)
    simp only [diagnoseTriggers, hc, if_true]
    exact ih fun x hx => h x (by simp [hx])

theorem _diagnose_ok (job : Job) (h : ∀ c ∈ job.triggers, job.diagnostics.contains c = true) :
    Pipeline._diagnose job = .ok { job with triggers := [] } := by
  unfold Pipeline._diagnose
  rw [diagnoseTriggers_ok _ _ h]

theorem runFinalizeLoop_ok (message : Option String) (l : List RAction)
    (h : ∀ r ∈ l, ∃ oc, r.behavior = .success oc) :
    ∃ out, runFinalizeLoop message l = .ok out := by
  induction l with
  | nil => exact ⟨([], []), rfl⟩
  | cons c rest ih =>
    obtain ⟨⟨l1, evs1⟩, hout⟩ := ih fun r hr => h r (by simp [hr])
    obtain ⟨oc, hoc⟩ := h c (by simp)
    cases hn : (c.name == "finalize")
    · simp only [runFinalizeLoop, hn, Bool.false_eq_true, if_false, hout]
      exact ⟨_, rfl⟩
    · rcases message with _ | m
      · simp only [runFinalizeLoop, hn, if_true, hoc, hout]
        exact ⟨_, rfl⟩
      · cases hm : (m == "") <;>
          simp only [runFinalizeLoop, hn, if_true, hm, Bool.false_eq_true, if_false, hoc,
            hout] <;>
          exact ⟨_, rfl⟩

theorem cleanup_actions_ok (job : Job) (message : Option String)
    (h : ∀ r ∈ job.rootActions, ∃ oc, r.behavior = .success oc) :
    ∃ acts evs, Pipeline.cleanup_actions job message
      = .ok ({ job with rootActions := acts },
        (job.rootActions.map (fun c => c.internalNames.map Ev.cleanedUp)).flatten ++ evs) := by
  obtain ⟨⟨acts, evs⟩, hout⟩ := runFinalizeLoop_ok message job.rootActions h
  refine ⟨acts, evs, ?_⟩
  simp only [Pipeline.cleanup_actions, hout]

/-- C1: when an action's `run` raises `JobError` or `InfrastructureError`
inside `Pipeline.run_actions` (and the job-global timeout has not fired, every
queued complaint has a diagnostic, and the root actions run cleanly when
finalized), the engine appends the exception message to the action's errors,
sets its `elapsed_time`, ensures the job context has a `boot-result` value,
logs the results, runs `_diagnose`, calls the failing action's `cleanup`, calls
`cleanup_actions(connection, message)` if and only if the pipeline has no
parent, and re-raises the same exception. -/
theorem C1_domain_error_handling (isRoot : Bool) (job : Job) (ts : Int) (conn : Nat)
    (clock : Int) (a : RAction) (rest : List RAction) (e : Exc) (m : String)
    (hbeh : a.behavior = .raises e)
    (he : e = .jobError [m] ∨ e = .infrastructureError [m])
    (hto : ∀ u, job.timeout = some u → clock ≤ ts + u.duration)
    (hdiag : ∀ c ∈ job.triggers, job.diagnostics.contains c = true)
    (hfin : ∀ r ∈ job.rootActions, ∃ oc, r.behavior = .success oc) :
    (Pipeline.run_actions isRoot job ts conn clock (a :: rest)).result = .error e
    ∧ (Pipeline.run_actions isRoot job ts conn clock (a :: rest)).actions
        = { a with errors := a.errors ++ [m], elapsed_time := some a.duration } :: rest
    ∧ (Pipeline.run_actions isRoot job ts conn clock (a :: rest)).job.bootResultSet = true
    ∧ Ev.loggedResults a.name ∈ (Pipeline.run_actions isRoot job ts conn clock (a :: rest)).trace
    ∧ Ev.diagnosed ∈ (Pipeline.run_actions isRoot job ts conn clock (a :: rest)).trace
    ∧ Ev.cleanedUp a.name ∈ (Pipeline.run_actions isRoot job ts conn clock (a :: rest)).trace
    ∧ (Ev.calledCleanupActions (some conn) (some m)
        ∈ (Pipeline.run_actions isRoot job ts conn clock (a :: rest)).trace ↔ isRoot = true) := by
  rcases he with rfl | rfl <;> rcases hjt : job.timeout with _ | u <;>
    by_cases hbr : job.bootResultSet = true <;> by_cases hr : isRoot = true
  all_goals
    obtain ⟨acts1, evs1, hca1⟩ := cleanup_actions_ok { job with triggers := [] } (some m) hfin
  all_goals
    obtain ⟨acts2, evs2, hca2⟩ :=
      cleanup_actions_ok { job with bootResultSet := true, triggers := [] } (some m) hfin
  all_goals
    first
    | have hnt : ¬(clock > ts + u.duration) := by have := hto u hjt; omega
    | have hnt : True := trivial
  all_goals
    first
    | rw [Bool.not_eq_true] at hbr
    | skip
  all_goals
    have hdg1 := _diagnose_ok job hdiag
  all_goals
    have hdg2 := _diagnose_ok { job with bootResultSet := true } hdiag
  all_goals
    simp only [hjt, hbr] at hca1 hca2 hdg1 hdg2
  all_goals
    simp [Pipeline.run_actions, hjt, hbeh, hnt, hbr, hr, hdg1, hdg2,
      hca1, hca2, Exc.isBroadCatch, Exc.isDomain, Exc.message, pyExcStr]

/-- C1 witness: the main theorem applied at a concrete root pipeline whose
only action raises `JobError("boom")`. -/
theorem C1_witness :
    (Pipeline.run_actions true {} 0 7 0
      [{ name := "boot", level := "1", behavior := .raises (.jobError ["boom"]), duration := 3 }]).result
      = .error (.jobError ["boom"])
    ∧ Ev.calledCleanupActions (some 7) (some "boom")
      ∈ (Pipeline.run_actions true {} 0 7 0
        [{ name := "boot", level := "1", behavior := .raises (.jobError ["boom"]), duration := 3 }]).trace := by
  have h := C1_domain_error_handling true {} 0 7 0
    { name := "boot", level := "1", behavior := .raises (.jobError ["boom"]), duration := 3 } []
    (.jobError ["boom"]) "boom" rfl (Or.inl rfl) (by simp) (by simp) (by simp)
  exact ⟨h.1, h.2.2.2.2.2.2.mpr rfl⟩

/-- C2: the job-global timeout is checked only between actions.  Before each
action, if the clock exceeds `timeout_start + job.timeout.duration`, the
engine records the timeout error on the current action, runs the last
root-level action directly when it is named `finalize` (raising
`RuntimeError` when it is not), and raises `JobError`; when the check does
not fire, the action runs to completion (its whole duration elapses and the
timeout is only consulted again before the next action), even if it overruns
the deadline while running. -/
theorem C2_job_timeout_between_actions (isRoot : Bool) (job : Job) (t : Timeout)
    (ts : Int) (conn : Nat) (clock : Int) (a : RAction) (rest : List RAction)
    (hjt : job.timeout = some t) :
    (∀ fin oc, clock > ts + t.duration →
      job.rootActions.getLast? = some fin → fin.name = "finalize" →
      fin.behavior = .success oc →
      Pipeline.run_actions isRoot job ts conn clock (a :: rest)
        = { actions := { a with errors := a.errors ++ [jobTimeoutMsg job.job_name t.duration] } :: rest,
            job := job, trace := [.ranAction fin.name],
            result := .error (.jobError [jobTimeoutMsg job.job_name t.duration]),
            clock := clock + fin.duration })
    ∧ (∀ fin, clock > ts + t.duration →
      job.rootActions.getLast? = some fin → fin.name ≠ "finalize" →
      Pipeline.run_actions isRoot job ts conn clock (a :: rest)
        = { actions := { a with errors := a.errors ++ [jobTimeoutMsg job.job_name t.duration] } :: rest,
            job := job, trace := [],
            result := .error (.runtimeError
              ["Invalid job pipeline - no finalize action to run after job timeout."]),
            clock := clock })
    ∧ (∀ oc, clock ≤ ts + t.duration → a.behavior = .success oc →
      Pipeline.run_actions isRoot job ts conn clock (a :: rest)
        = { actions := { a with elapsed_time := some a.duration }
              :: (Pipeline.run_actions isRoot job ts (oc.getD conn) (clock + a.duration) rest).actions,
            job := (Pipeline.run_actions isRoot job ts (oc.getD conn) (clock + a.duration) rest).job,
            trace := Ev.started a.level a.name :: Ev.completedLog a.name :: Ev.loggedResults a.name
              :: (Pipeline.run_actions isRoot job ts (oc.getD conn) (clock + a.duration) rest).trace,
            result := (Pipeline.run_actions isRoot job ts (oc.getD conn) (clock + a.duration) rest).result,
            clock := (Pipeline.run_actions isRoot job ts (oc.getD conn) (clock + a.duration) rest).clock }) := by
  refine ⟨fun fin oc h hlast hname hbf => ?_, fun fin h hlast hname => ?_, fun oc h hb => ?_⟩
  · simp only [Pipeline.run_actions, hjt]
    rw [if_pos h]
    simp only [hlast, hname, hbf, beq_self_eq_true, if_true]
  · simp only [Pipeline.run_actions, hjt]
    rw [if_pos h]
    simp only [hlast]
    rw [if_neg (by simpa using hname)]
  · simp only [Pipeline.run_actions, hjt]
    rw [if_neg (by omega)]
    simp only [hb]

/-- The root finalize action for the C2 witness. -/
def c2Fin : RAction := { name := "finalize", behavior := .success none }

/-- A job with a 2-second global timeout for the C2 witness. -/
def c2Job : Job :=
  { job_name := "j", timeout := some { name := "job", duration := 2 }, rootActions := [c2Fin] }

/-- An ordinary 5-second action for the C2 witness. -/
def c2A : RAction := { name := "boot", level := "1", behavior := .success none, duration := 5 }

/-- C2 witness: at clock 10 the 2-second job timeout has fired, so the
engine records the error, runs finalize and raises `JobError`; at clock 1 it
has not, so the 5-second action runs to completion (finishing at clock 6,
past the deadline) before anything is raised. -/
theorem C2_witness :
    Pipeline.run_actions true c2Job 0 7 10 [c2A]
      = { actions := [{ c2A with errors := ["Job \x27j\x27 timed out after 2 seconds"] }],
          job := c2Job, trace := [.ranAction "finalize"],
          result := .error (.jobError ["Job \x27j\x27 timed out after 2 seconds"]),
          clock := 10 }
    ∧ Pipeline.run_actions true c2Job 0 7 1 [c2A]
      = { actions := [{ c2A with elapsed_time := some 5 }], job := c2Job,
          trace := [.started "1" "boot", .completedLog "boot", .loggedResults "boot"],
          result := .ok 7, clock := 6 } := by
  have h := C2_job_timeout_between_actions true c2Job { name := "job", duration := 2 } 0 7 10
    c2A [] rfl
  have h1 := h.1 c2Fin none (by decide) rfl rfl rfl
  have h' := C2_job_timeout_between_actions true c2Job { name := "job", duration := 2 } 0 7 1
    c2A [] rfl
  have h2 := h'.2.2 none (by decide) rfl
  exact ⟨h1, h2⟩

/-- A Python value stored in common data (strings, numbers, lists — the
"filenames, labels and ID strings" and small compounds the source stores). -/
inductive PVal where
  | str (s : String)
  | int (n : Int)
  | list (xs : List PVal)

/-- An object heap: Python variables hold references into it.  `copy.deepcopy`
allocates a fresh cell holding an equal value; in-place mutation of an object
is an update of its cell. -/
structure Store where
  next : Nat := 0
  mem : List (Nat × PVal) := []

/-- Dereference. -/
def Store.lookup (st : Store) (r : Nat) : Option PVal :=
  (st.mem.find? (fun p => p.1 == r)).map (·.2)

/-- Allocate a fresh object holding `v` (this is what `copy.deepcopy` does to
a value of the shapes above). -/
def Store.alloc (st : Store) (v : PVal) : Nat × Store :=
  (st.next, { next := st.next + 1, mem := (st.next, v) :: st.mem })

/-- Mutate the object behind `r` in place. -/
def Store.update (st : Store) (r : Nat) (v : PVal) : Store :=
  { st with mem := (r, v) :: st.mem }

/-- `self.data['common']`: the namespaces present and the per-(ns, key)
stored references. -/
structure CommonData where
  namespaces : List String := []
  entries : List ((String × String) × Nat) := []

/-- `data['common'][ns].get(key, None)`. -/
def CommonData.get (cd : CommonData) (ns key : String) : Option Nat :=
  (cd.entries.find? (fun p => p.1 == (ns, key))).map (·.2)

/-- `Action.set_common_data`: `setdefault(ns, {})` then store the reference
passed (assignment, not a copy). -/
def Action.set_common_data (cd : CommonData) (ns key : String) (value : Nat) : CommonData :=
  { namespaces := if cd.namespaces.contains ns then cd.namespaces else cd.namespaces ++ [ns],
    entries := ((ns, key), value) :: cd.entries }

/-- `Action.get_common_data`: `None` when the namespace is absent; otherwise
the stored reference itself (`deepcopy=False`) or a deep copy
(`deepcopy=True`, the default); `copy.deepcopy(None)` is `None`.  A stored
reference always dereferences in any store produced by this model; the
`none` fallback of the dangling case is unreachable there. -/
def Action.get_common_data (cd : CommonData) (st : Store) (ns key : String)
    (deepcopy : Bool := true) : Option Nat × Store :=
  if !(cd.namespaces.contains ns) then (none, st)
  else
    match cd.get ns key with
    | none => (none, st)
    | some r =>
      if deepcopy then
        match st.lookup r with
        | some v =>
          let a := st.alloc v
          (some a.1, a.2)
        | none => (none, st)
      else (some r, st)

/-- C8: after `set_common_data(ns, key, v)` (storing a freshly created object
holding `v`), a default deep-copy read returns a different reference whose
value equals the stored one; mutating the object behind the returned
reference — with any value `w` — leaves the stored object unchanged, so a
later default read still yields a value equal to `v`; and an aliased read
(`deepcopy=False`) returns the very same stored reference without touching
the store. -/
theorem C8_common_data_deepcopy (st : Store) (cd : CommonData) (ns key : String) (v : PVal) :
    Action.get_common_data (Action.set_common_data cd ns key (st.alloc v).1) (st.alloc v).2
        ns key false = (some (st.alloc v).1, (st.alloc v).2)
    ∧ Action.get_common_data (Action.set_common_data cd ns key (st.alloc v).1) (st.alloc v).2
        ns key true
      = (some ((st.alloc v).2.alloc v).1, ((st.alloc v).2.alloc v).2)
    ∧ ((st.alloc v).2.alloc v).1 ≠ (st.alloc v).1
    ∧ ((st.alloc v).2.alloc v).2.lookup ((st.alloc v).2.alloc v).1 = some v
    ∧ ((st.alloc v).2.alloc v).2.lookup (st.alloc v).1 = some v
    ∧ (∀ w : PVal,
        (((st.alloc v).2.alloc v).2.update ((st.alloc v).2.alloc v).1 w).lookup (st.alloc v).1
          = some v)
    ∧ (∀ w : PVal,
        (Action.get_common_data (Action.set_common_data cd ns key (st.alloc v).1)
            (((st.alloc v).2.alloc v).2.update ((st.alloc v).2.alloc v).1 w) ns key true).1
          = some ((((st.alloc v).2.alloc v).2.update ((st.alloc v).2.alloc v).1 w)).next
        ∧ (Action.get_common_data (Action.set_common_data cd ns key (st.alloc v).1)
            (((st.alloc v).2.alloc v).2.update ((st.alloc v).2.alloc v).1 w) ns key true).2.lookup
            ((((st.alloc v).2.alloc v).2.update ((st.alloc v).2.alloc v).1 w)).next
          = some v) := by
  have hns : ns ∈ (Action.set_common_data cd ns key st.next).namespaces := by
    simp only [Action.set_common_data]
    split <;> simp_all
  have hnsb : (Action.set_common_data cd ns key st.next).namespaces.contains ns = true := by
    simp [hns]
  have hget : (Action.set_common_data cd ns key st.next).get ns key = some st.next := by
    simp [Action.set_common_data, CommonData.get]
  have h10 : ((st.next + 1 == st.next) : Bool) = false := by
    simp only [beq_eq_false_iff_ne]; omega
  have h20 : ((st.next + 1 + 1 == st.next) : Bool) = false := by
    simp only [beq_eq_false_iff_ne]; omega
  have h21 : ((st.next + 1 + 1 == st.next + 1) : Bool) = false := by
    simp only [beq_eq_false_iff_ne]; omega
  refine ⟨?_, ?_, by simp [Store.alloc], ?_, ?_, fun w => ?_, fun w => ⟨?_, ?_⟩⟩
  · simp [Action.get_common_data, hns, hnsb, hget, Store.alloc]
  · simp [Action.get_common_data, hns, hnsb, hget, Store.alloc, Store.lookup]
  · simp [Store.alloc, Store.lookup]
  · simp [Store.alloc, Store.lookup, h10]
  · simp [Store.alloc, Store.update, Store.lookup, h10, h21]
  · simp [Action.get_common_data, hns, hnsb, hget, Store.alloc, Store.update, Store.lookup,
      h10, h20, h21]
  · simp [Action.get_common_data, hns, hnsb, hget, Store.alloc, Store.update, Store.lookup,
      h10, h20, h21]

end LavaDispatcher
